import Mathlib

/-!
# Teams List resource: reconciliation and item diff

A shallow embedding of `cloudflare/resource_cloudflare_teams_list.go`.

Modelling conventions.

* Go strings are Lean `String`s; `strings.Contains` and `strings.SplitN` are
  written out over the character lists.
* A Go `error` is the text returned by its `Error()` method; `nil` is `none`.
* The remote API client is a record of functions over an explicit world `W`:
  every call receives the current world and returns its result together with
  the next world, so a client may answer the same call differently each time.
* Every client call an operation makes is recorded, in order, together with its
  error (if any), in the `trace` of the operation's result.
* `*schema.ResourceData` is a record holding the id and the five schema fields
  as `d.Id()`/`d.Get` return them, plus the prior-state value of `items`, which
  is the first component of `d.GetChange("items")`.
* `map[string]int` is an association list with distinct keys.  The order in
  which `range` visits a map is not specified by Go; it is a parameter
  (`rangeOrder`) and theorems hold for every order that is a permutation of
  the entries.
* `int` is 64 bits wide in Go.  A count in `setListItemDiff` is changed by one
  per list element, and a slice cannot hold `2^63` strings, so no count can
  overflow; the counts are `Int`.
* `log.Printf` has no effect on the state and is left out.
-/

namespace Cloudflare

/-! ## Data model -/

/-- The fields of `cloudflare.TeamsListItem` the resource touches. -/
structure TeamsListItem where
  ID : String
  Value : String
deriving DecidableEq, Repr

/-- The fields of `cloudflare.TeamsList` the resource touches (`Type_` is the Go
field `Type`, a reserved word here). -/
structure TeamsList where
  ID : String
  Name : String
  Type_ : String
  Description : String
  Items : List TeamsListItem
deriving DecidableEq, Repr

/-- The struct `cloudflare.PatchTeamsList`. -/
structure PatchTeamsList where
  ID : String
  Append : List TeamsListItem
  Remove : List String
deriving DecidableEq, Repr

/-! ## `map[string]int` -/

/-- The statement `counts[k] += delta`: an absent key reads as `0` and is inserted. -/
def mapAdd : List (String × Int) → String → Int → List (String × Int)
  | [], k, delta => [(k, 0 + delta)]
  | (k', v) :: t, k, delta =>
    if k' = k then (k', v + delta) :: t else (k', v) :: mapAdd t k delta

/-- The expression `counts[k]`: the zero value when the key is absent. -/
def mapGet : List (String × Int) → String → Int
  | [], _ => 0
  | (k', v) :: t, k => if k' = k then v else mapGet t k

/-! ## Item set differ -/

/-- The two counting loops of `setListItemDiff`. -/
def diffCounts (oldItems newItems : List String) : List (String × Int) :=
  oldItems.foldl (fun counts val => mapAdd counts val (-1))
    (newItems.foldl (fun counts val => mapAdd counts val 1) [])

/-- The body of the `for key, val := range counts` loop. -/
def diffStep (patchList : PatchTeamsList) (kv : String × Int) : PatchTeamsList :=
  let p1 : PatchTeamsList :=
    if kv.2 > 0 then
      { patchList with Append := patchList.Append ++ [{ ID := "", Value := kv.1 }] }
    else patchList
  if kv.2 < 0 then { p1 with Remove := p1.Remove ++ [kv.1] } else p1

/-- The function `setListItemDiff`; `rangeOrder` is the order in which `range`
visits the entries of the map. -/
def setListItemDiff (rangeOrder : List (String × Int) → List (String × Int))
    (patchList : PatchTeamsList) (oldItems newItems : List String) : PatchTeamsList :=
  (rangeOrder (diffCounts oldItems newItems)).foldl diffStep patchList

/-- The function `convertListItemsToSchema`. -/
def convertListItemsToSchema (listItems : List TeamsListItem) : List String :=
  listItems.foldl (fun itemValues item => itemValues ++ [item.Value]) []

/-- A `range` order is admissible when it visits every entry exactly once. -/
def ValidOrder (rangeOrder : List (String × Int) → List (String × Int)) : Prop :=
  ∀ m, (rangeOrder m).Perm m

/-- Applying a patch as the differ's contract describes it: every `Append` value
is added to the collection, then every `Remove` value is deleted from it. -/
def applyPatch (items : List String) (p : PatchTeamsList) : List String :=
  (items ++ p.Append.map (fun it => it.Value)).filter (fun v => decide (v ∉ p.Remove))

/-- A second reading of the same contract, in which deleting a value takes away
one occurrence of it only. -/
def applyPatchOnce (items : List String) (p : PatchTeamsList) : List String :=
  p.Remove.foldl (fun acc v => acc.erase v) (items ++ p.Append.map (fun it => it.Value))

/-- Order-insensitive, duplicate-insensitive equality of two collections. -/
def SameSet (a b : List String) : Prop := ∀ v, v ∈ a ↔ v ∈ b

instance (a b : List String) : Decidable (SameSet a b) :=
  decidable_of_iff (a ⊆ b ∧ b ⊆ a) (by
    unfold SameSet
    constructor
    · intro h v; exact ⟨fun hv => h.1 hv, fun hv => h.2 hv⟩
    · intro h; exact ⟨fun v hv => (h v).1 hv, fun v hv => (h v).2 hv⟩)

/-! ## Strings -/

/-- Whether `s` begins with `pre`. -/
def startsWith : List Char → List Char → Bool
  | _, [] => true
  | [], _ :: _ => false
  | c :: s, p :: pre => decide (c = p) && startsWith s pre

/-- Whether `substr` occurs somewhere in `s`. -/
def containsChars : List Char → List Char → Bool
  | [], substr => startsWith [] substr
  | c :: s, substr => startsWith (c :: s) substr || containsChars s substr

/-- The function `strings.Contains`. -/
def stringsContains (s substr : String) : Bool := containsChars s.data substr.data

/-- The text before the first occurrence of `sep` in `s` and the text after it
(`strings.Index` followed by the two slicings of `genSplit`); `none` when `sep`
does not occur. -/
def cutFirst (sep : List Char) : List Char → Option (List Char × List Char)
  | [] => if startsWith [] sep then some ([], []) else none
  | c :: s =>
    if startsWith (c :: s) sep then some ([], (c :: s).drop sep.length)
    else
      match cutFirst sep s with
      | none => none
      | some (a, rest) => some (c :: a, rest)

/-- The loop of `genSplit`: at most `i` cuts, the rest of the text is the last piece. -/
def splitLoop (sep : List Char) : Nat → List Char → List (List Char)
  | 0, s => [s]
  | i + 1, s =>
    match cutFirst sep s with
    | none => [s]
    | some (a, rest) => a :: splitLoop sep i rest

/-- The function `strings.SplitN` for a non-empty separator and `n ≥ 0`.  Go caps
`n` at `len(s) + 1` counted in bytes; the cap only bounds the allocation (every cut
consumes at least one character), so counting characters gives the same pieces. -/
def stringsSplitN (s sep : String) (n : Nat) : List String :=
  if n = 0 then []
  else (splitLoop sep.data (min n (s.length + 1) - 1) s.data).map String.mk

/-! ## The declarative surface -/

/-- The resource data `*schema.ResourceData` of a Teams List: `id` is `d.Id()`,
the five fields are what `d.Get` returns, and `itemsPrior` is the value of
`items` in the prior state. -/
structure ResourceData where
  id : String
  account_id : String
  name : String
  type : String
  description : String
  items : List String
  itemsPrior : List String
deriving DecidableEq, Repr

/-- The pair `d.GetChange("items")`: the prior and the planned value. -/
def ResourceData.GetChange (d : ResourceData) : List String × List String :=
  (d.itemsPrior, d.items)

/-- The test `d.HasChange("items")`: the two values of `GetChange` differ
(`reflect.DeepEqual`, a comparison by value). -/
def ResourceData.HasChange (d : ResourceData) : Bool :=
  decide (d.GetChange.1 ≠ d.GetChange.2)

/-- Modelled from the spec: the helper `expandInterfaceToStringList` is defined
outside this file; the last-known and the desired items reach the Differ as the
sequences of strings they are. -/
def expandInterfaceToStringList (l : List String) : List String := l

/-! ## The remote client -/

/-- The client `*cloudflare.API` over a world `W`. -/
structure API (W : Type) where
  CreateTeamsList : W → String → Cloudflare.TeamsList → Except String Cloudflare.TeamsList × W
  TeamsList : W → String → String → Except String Cloudflare.TeamsList × W
  TeamsListItems : W → String → String → Except String (List TeamsListItem) × W
  UpdateTeamsList : W → String → Cloudflare.TeamsList → Except String Cloudflare.TeamsList × W
  PatchTeamsList : W → String → Cloudflare.PatchTeamsList → Except String Cloudflare.TeamsList × W
  DeleteTeamsList : W → String → String → Option String × W

/-- What an operation receives besides the resource data: the client (Go's
`meta`), the rendering of the `%q` verb of `fmt`, and the order in which `range`
visits a map. -/
structure Provider (W : Type) where
  client : API W
  quote : String → String
  rangeOrder : List (String × Int) → List (String × Int)

/-- A client call with its arguments. -/
inductive Call where
  | CreateTeamsList (accountID : String) (list : TeamsList)
  | TeamsList (accountID : String) (id : String)
  | TeamsListItems (accountID : String) (id : String)
  | UpdateTeamsList (accountID : String) (list : TeamsList)
  | PatchTeamsList (accountID : String) (patch : PatchTeamsList)
  | DeleteTeamsList (accountID : String) (id : String)
deriving DecidableEq, Repr

/-- A client call that was made, with the error it returned (`none` for `nil`). -/
structure Event where
  call : Call
  err : Option String
deriving DecidableEq, Repr

/-- The call is an items fetch. -/
def Call.isItemsFetch : Call → Bool
  | .TeamsListItems _ _ => true
  | _ => false

/-- The call is a patch call. -/
def Call.isPatch : Call → Bool
  | .PatchTeamsList _ _ => true
  | _ => false

/-- The event is an entity fetch that failed with a not-found error. -/
def Event.isNotFoundFetch (e : Event) : Bool :=
  match e.call, e.err with
  | .TeamsList _ _, some msg => stringsContains msg "HTTP status 404"
  | _, _ => false

/-- The answer of a client call is an error whose text signals not-found (the test
`strings.Contains(err.Error(), "HTTP status 404")` of Read). -/
def isNotFound {α : Type} : Except String α → Bool
  | .error e => stringsContains e "HTTP status 404"
  | .ok _ => false

/-- The outcome of Create, Read, Update or Delete: the returned error, the
resource data and the world after the call, and the client calls made. -/
structure Result (W : Type) where
  err : Option String
  d : ResourceData
  w : W
  trace : List Event

/-- The outcome of Import: the returned slice (`nil` is `[]`) and error, the
resource data and the world after the call, and the client calls made. -/
structure ImportResult (W : Type) where
  resources : List ResourceData
  err : Option String
  d : ResourceData
  w : W
  trace : List Event

/-! ## The reconciler -/

/-- The function `resourceCloudflareTeamsListRead`. -/
def resourceCloudflareTeamsListRead {W : Type} (m : Provider W) (d : ResourceData) (w : W) :
    Result W :=
  let accountID := d.account_id
  match m.client.TeamsList w accountID d.id with
  | (.error err, w1) =>
    if stringsContains err "HTTP status 404" then
      { err := none, d := { d with id := "" }, w := w1,
        trace := [⟨.TeamsList accountID d.id, some err⟩] }
    else
      { err := some ("Error finding Teams List " ++ m.quote d.id ++ ": " ++ err),
        d := d, w := w1, trace := [⟨.TeamsList accountID d.id, some err⟩] }
  | (.ok list, w1) =>
    let d1 : ResourceData :=
      { d with name := list.Name, type := list.Type_, description := list.Description }
    match m.client.TeamsListItems w1 accountID d1.id with
    | (.error err, w2) =>
      { err := some ("Error finding Teams List " ++ m.quote d1.id ++ ": " ++ err),
        d := d1, w := w2,
        trace := [⟨.TeamsList accountID d.id, none⟩, ⟨.TeamsListItems accountID d1.id, some err⟩] }
    | (.ok listItems, w2) =>
      { err := none, d := { d1 with items := convertListItemsToSchema listItems }, w := w2,
        trace := [⟨.TeamsList accountID d.id, none⟩, ⟨.TeamsListItems accountID d1.id, none⟩] }

/-- The function `resourceCloudflareTeamsListCreate`. -/
def resourceCloudflareTeamsListCreate {W : Type} (m : Provider W) (d : ResourceData) (w : W) :
    Result W :=
  let newTeamsList : TeamsList :=
    { ID := "", Name := d.name, Type_ := d.type, Description := d.description,
      Items := d.items.foldl (fun items v => items ++ [{ ID := "", Value := v }]) [] }
  let accountID := d.account_id
  match m.client.CreateTeamsList w accountID newTeamsList with
  | (.error err, w1) =>
    { err := some ("error creating Teams List for account " ++ m.quote accountID ++ ": " ++ err),
      d := d, w := w1, trace := [⟨.CreateTeamsList accountID newTeamsList, some err⟩] }
  | (.ok list, w1) =>
    let r := resourceCloudflareTeamsListRead m { d with id := list.ID } w1
    { r with trace := ⟨.CreateTeamsList accountID newTeamsList, none⟩ :: r.trace }

/-- The function `resourceCloudflareTeamsListUpdate`. -/
def resourceCloudflareTeamsListUpdate {W : Type} (m : Provider W) (d : ResourceData) (w : W) :
    Result W :=
  let updatedTeamsList : TeamsList :=
    { ID := d.id, Name := d.name, Type_ := d.type, Description := d.description, Items := [] }
  let accountID := d.account_id
  match m.client.UpdateTeamsList w accountID updatedTeamsList with
  | (.error err, w1) =>
    { err := some ("error updating Teams List for account " ++ m.quote accountID ++ ": " ++ err),
      d := d, w := w1, trace := [⟨.UpdateTeamsList accountID updatedTeamsList, some err⟩] }
  | (.ok teamsList, w1) =>
    if teamsList.ID = "" then
      { err := some "failed to find Teams List ID in update response; resource was empty",
        d := d, w := w1, trace := [⟨.UpdateTeamsList accountID updatedTeamsList, none⟩] }
    else if d.HasChange then
      let oldItems := expandInterfaceToStringList d.GetChange.1
      let newItems := expandInterfaceToStringList d.GetChange.2
      let patchTeamsList :=
        setListItemDiff m.rangeOrder { ID := d.id, Append := [], Remove := [] } oldItems newItems
      match m.client.PatchTeamsList w1 accountID patchTeamsList with
      | (.error err, w2) =>
        { err := some ("error updating Teams List for account " ++ m.quote accountID ++ ": "
            ++ err),
          d := d, w := w2,
          trace := [⟨.UpdateTeamsList accountID updatedTeamsList, none⟩,
                    ⟨.PatchTeamsList accountID patchTeamsList, some err⟩] }
      | (.ok _, w2) =>
        let r := resourceCloudflareTeamsListRead m d w2
        { r with trace := ⟨.UpdateTeamsList accountID updatedTeamsList, none⟩
                    :: ⟨.PatchTeamsList accountID patchTeamsList, none⟩ :: r.trace }
    else
      let r := resourceCloudflareTeamsListRead m d w1
      { r with trace := ⟨.UpdateTeamsList accountID updatedTeamsList, none⟩ :: r.trace }

/-- The function `resourceCloudflareTeamsListDelete`. -/
def resourceCloudflareTeamsListDelete {W : Type} (m : Provider W) (d : ResourceData) (w : W) :
    Result W :=
  let appID := d.id
  let accountID := d.account_id
  match m.client.DeleteTeamsList w accountID appID with
  | (some err, w1) =>
    { err := some ("error deleting Teams List for account " ++ m.quote accountID ++ ": " ++ err),
      d := d, w := w1, trace := [⟨.DeleteTeamsList accountID appID, some err⟩] }
  | (none, w1) =>
    let r := resourceCloudflareTeamsListRead m d w1
    { err := none, d := r.d, w := r.w,
      trace := ⟨.DeleteTeamsList accountID appID, none⟩ :: r.trace }

/-- The function `resourceCloudflareTeamsListImport`.  The test
`len(attributes) != 2` followed by the two index expressions is the match on a
slice of exactly two pieces. -/
def resourceCloudflareTeamsListImport {W : Type} (m : Provider W) (d : ResourceData) (w : W) :
    ImportResult W :=
  match stringsSplitN d.id "/" 2 with
  | [accountID, teamsListID] =>
    let r := resourceCloudflareTeamsListRead m { d with account_id := accountID, id := teamsListID } w
    { resources := [r.d], err := none, d := r.d, w := r.w, trace := r.trace }
  | _ =>
    { resources := [],
      err := some ("invalid id (\"" ++ d.id
        ++ "\") specified, should be in format \"accountID/accessApplicationID\""),
      d := d, w := w, trace := [] }

/-! ## Concrete clients -/

/-- A client without state that gives the same answer to every call of a kind. -/
def constClient (create get : Except String TeamsList)
    (items : Except String (List TeamsListItem)) (update change : Except String TeamsList)
    (delete : Option String) : API Unit where
  CreateTeamsList := fun w _ _ => (create, w)
  TeamsList := fun w _ _ => (get, w)
  TeamsListItems := fun w _ _ => (items, w)
  UpdateTeamsList := fun w _ _ => (update, w)
  PatchTeamsList := fun w _ _ => (change, w)
  DeleteTeamsList := fun w _ _ => (delete, w)

/-- A provider around `constClient`; `%q` wraps its argument in double quotes and
`range` visits the map in insertion order. -/
def constProvider (create get : Except String TeamsList)
    (items : Except String (List TeamsListItem)) (update change : Except String TeamsList)
    (delete : Option String) : Provider Unit where
  client := constClient create get items update change delete
  quote := fun s => "\"" ++ s ++ "\""
  rangeOrder := id

/-- The remote list used in the examples. -/
def sampleList : TeamsList :=
  { ID := "res1", Name := "remote name", Type_ := "URL", Description := "remote text",
    Items := [] }

/-- Local resource data used in the examples. -/
def sampleData : ResourceData :=
  { id := "res1", account_id := "acct1", name := "local name", type := "DOMAIN",
    description := "local text", items := ["a.example"], itemsPrior := ["a.example"] }

/-- Every call fails: the remote side cannot be reached. -/
def offlineProvider : Provider Unit :=
  constProvider (.error "connection refused") (.error "connection refused")
    (.error "connection refused") (.error "connection refused") (.error "connection refused")
    (some "connection refused")

/-- The entity fetch reports not-found; every other call succeeds. -/
def notFoundProvider : Provider Unit :=
  constProvider (.ok sampleList) (.error "HTTP status 404: list not found") (.ok [])
    (.ok sampleList) (.ok sampleList) none

/-- The entity fetch succeeds and the items fetch fails. -/
def itemsFailProvider : Provider Unit :=
  constProvider (.ok sampleList) (.ok sampleList) (.error "HTTP status 500") (.ok sampleList)
    (.ok sampleList) none

/-- Every call succeeds. -/
def okProvider : Provider Unit :=
  constProvider (.ok sampleList) (.ok sampleList) (.ok [⟨"i1", "a.example"⟩]) (.ok sampleList)
    (.ok sampleList) none

/-! ## Facts about the counting map -/

theorem mapGet_mapAdd (m : List (String × Int)) (k k' : String) (delta : Int) :
    mapGet (mapAdd m k delta) k' = mapGet m k' + (if k = k' then delta else 0) := by
  induction m with
  | nil =>
    by_cases h : k = k' <;> simp [mapAdd, mapGet, h]
  | cons p t ih =>
    obtain ⟨a, b⟩ := p
    by_cases h1 : a = k
    · subst h1
      by_cases h2 : a = k'
      · subst h2
        simp [mapAdd, mapGet]
      · simp [mapAdd, mapGet, h2]
    · by_cases h2 : a = k'
      · subst h2
        have h3 : ¬ k = a := fun h => h1 h.symm
        simp [mapAdd, mapGet, h1, h3]
      · simp [mapAdd, mapGet, h1, h2, ih]

theorem keys_mapAdd (m : List (String × Int)) (k : String) (delta : Int) :
    (mapAdd m k delta).map Prod.fst =
      if k ∈ m.map Prod.fst then m.map Prod.fst else m.map Prod.fst ++ [k] := by
  induction m with
  | nil => simp [mapAdd]
  | cons p t ih =>
    obtain ⟨a, b⟩ := p
    by_cases h1 : a = k
    · simp [mapAdd, h1]
    · have h1' : ¬ k = a := fun h => h1 h.symm
      by_cases h2 : k ∈ t.map Prod.fst
      · rw [if_pos h2] at ih
        have h3 : k ∈ ((a, b) :: t).map Prod.fst := by
          rw [List.map_cons]; exact List.mem_cons_of_mem _ h2
        rw [if_pos h3]
        simp only [mapAdd, if_neg h1, List.map_cons, ih]
      · rw [if_neg h2] at ih
        have h3 : ¬ k ∈ ((a, b) :: t).map Prod.fst := by
          rw [List.map_cons, List.mem_cons]
          rintro (h | h)
          · exact h1' h
          · exact h2 h
        rw [if_neg h3]
        simp only [mapAdd, if_neg h1, List.map_cons, ih, List.cons_append]

theorem nodup_keys_mapAdd (m : List (String × Int)) (k : String) (delta : Int)
    (h : (m.map Prod.fst).Nodup) : ((mapAdd m k delta).map Prod.fst).Nodup := by
  rw [keys_mapAdd]
  split
  · exact h
  · rename_i hk
    rw [List.nodup_append]
    refine ⟨h, List.nodup_singleton k, ?_⟩
    intro a ha hb
    rw [List.mem_singleton] at hb
    exact hk (hb ▸ ha)

theorem mapGet_foldl_mapAdd (items : List String) (delta : Int) (m : List (String × Int))
    (v : String) :
    mapGet (items.foldl (fun counts val => mapAdd counts val delta) m) v
      = mapGet m v + delta * (items.count v : Int) := by
  induction items generalizing m with
  | nil => simp
  | cons a t ih =>
    rw [List.foldl_cons, ih, mapGet_mapAdd]
    by_cases h : a = v
    · subst h
      simp only [if_true, List.count_cons_self]
      push_cast
      ring
    · have h' : ¬ (a == v) = true := by simpa using h
      simp only [if_neg h, List.count_cons, h']
      simp

theorem nodup_keys_foldl_mapAdd (items : List String) (delta : Int) (m : List (String × Int))
    (h : (m.map Prod.fst).Nodup) :
    ((items.foldl (fun counts val => mapAdd counts val delta) m).map Prod.fst).Nodup := by
  induction items generalizing m with
  | nil => simpa using h
  | cons a t ih =>
    rw [List.foldl_cons]
    exact ih _ (nodup_keys_mapAdd m a delta h)

/-- After the two counting loops the map holds, for every value, the number of
its occurrences in `newItems` minus the number in `oldItems`. -/
theorem mapGet_diffCounts (oldItems newItems : List String) (v : String) :
    mapGet (diffCounts oldItems newItems) v
      = (newItems.count v : Int) - (oldItems.count v : Int) := by
  unfold diffCounts
  rw [mapGet_foldl_mapAdd, mapGet_foldl_mapAdd]
  simp [mapGet]
  ring

theorem nodup_keys_diffCounts (oldItems newItems : List String) :
    ((diffCounts oldItems newItems).map Prod.fst).Nodup := by
  unfold diffCounts
  apply nodup_keys_foldl_mapAdd
  apply nodup_keys_foldl_mapAdd
  simp

theorem mem_of_mapGet_ne_zero (m : List (String × Int)) (k : String)
    (h : mapGet m k ≠ 0) : (k, mapGet m k) ∈ m := by
  induction m with
  | nil => simp [mapGet] at h
  | cons p t ih =>
    obtain ⟨a, b⟩ := p
    by_cases h1 : a = k
    · subst h1
      simp [mapGet]
    · simp only [mapGet, if_neg h1] at h ⊢
      exact List.mem_cons_of_mem _ (ih h)

theorem mapGet_of_mem (m : List (String × Int)) (k : String) (c : Int)
    (hn : (m.map Prod.fst).Nodup) (h : (k, c) ∈ m) : mapGet m k = c := by
  induction m with
  | nil => simp at h
  | cons p t ih =>
    obtain ⟨a, b⟩ := p
    rw [List.map_cons, List.nodup_cons] at hn
    rw [List.mem_cons] at h
    by_cases h1 : a = k
    · subst h1
      rcases h with h | h
      · simp only [Prod.mk.injEq] at h
        simp [mapGet, h.2]
      · exact absurd (List.mem_map_of_mem Prod.fst h) hn.1
    · rcases h with h | h
      · simp only [Prod.mk.injEq] at h
        exact absurd h.1.symm h1
      · simp only [mapGet, if_neg h1]
        exact ih hn.2 h

/-! ## Facts about the `range` loop -/

theorem foldl_diffStep_ID (l : List (String × Int)) (p : PatchTeamsList) :
    (l.foldl diffStep p).ID = p.ID := by
  induction l generalizing p with
  | nil => rfl
  | cons kv t ih =>
    rw [List.foldl_cons, ih]
    unfold diffStep
    by_cases h1 : kv.2 > 0 <;> by_cases h2 : kv.2 < 0 <;> simp [h1, h2]

theorem foldl_diffStep_Append (l : List (String × Int)) (p : PatchTeamsList) :
    (l.foldl diffStep p).Append
      = p.Append ++ (l.filter (fun kv => decide (kv.2 > 0))).map
          (fun kv => ({ ID := "", Value := kv.1 } : TeamsListItem)) := by
  induction l generalizing p with
  | nil => simp
  | cons kv t ih =>
    rw [List.foldl_cons, ih]
    unfold diffStep
    by_cases h1 : kv.2 > 0 <;> by_cases h2 : kv.2 < 0 <;> simp [h1, h2, List.filter_cons]

theorem foldl_diffStep_Remove (l : List (String × Int)) (p : PatchTeamsList) :
    (l.foldl diffStep p).Remove
      = p.Remove ++ (l.filter (fun kv => decide (kv.2 < 0))).map Prod.fst := by
  induction l generalizing p with
  | nil => simp
  | cons kv t ih =>
    rw [List.foldl_cons, ih]
    unfold diffStep
    by_cases h1 : kv.2 > 0 <;> by_cases h2 : kv.2 < 0 <;> simp [h1, h2, List.filter_cons]

/-! ## What the differ puts into a patch -/

theorem mem_filter_keys (m : List (String × Int)) (hn : (m.map Prod.fst).Nodup)
    (P : Int → Prop) [DecidablePred P] (h0 : ¬ P 0) (v : String) :
    v ∈ (m.filter (fun kv => decide (P kv.2))).map Prod.fst ↔ P (mapGet m v) := by
  constructor
  · intro h
    rw [List.mem_map] at h
    obtain ⟨⟨k, c⟩, hkv, hk⟩ := h
    rw [List.mem_filter] at hkv
    simp only at hk
    subst hk
    rw [mapGet_of_mem m k c hn hkv.1]
    simpa using hkv.2
  · intro h
    have hne : mapGet m v ≠ 0 := fun h' => h0 (h' ▸ h)
    rw [List.mem_map]
    refine ⟨(v, mapGet m v), ?_, rfl⟩
    rw [List.mem_filter]
    exact ⟨mem_of_mapGet_ne_zero m v hne, by simpa using h⟩

theorem nodup_filter_keys (m : List (String × Int)) (hn : (m.map Prod.fst).Nodup)
    (q : String × Int → Bool) : ((m.filter q).map Prod.fst).Nodup :=
  List.Nodup.sublist (List.Sublist.map Prod.fst (List.filter_sublist m)) hn

theorem Append_values (rangeOrder : List (String × Int) → List (String × Int))
    (id : String) (oldItems newItems : List String) :
    (setListItemDiff rangeOrder ⟨id, [], []⟩ oldItems newItems).Append.map (fun it => it.Value)
      = ((rangeOrder (diffCounts oldItems newItems)).filter
          (fun kv => decide (kv.2 > 0))).map Prod.fst := by
  unfold setListItemDiff
  rw [foldl_diffStep_Append]
  simp [List.map_map, Function.comp_def]

theorem Remove_values (rangeOrder : List (String × Int) → List (String × Int))
    (id : String) (oldItems newItems : List String) :
    (setListItemDiff rangeOrder ⟨id, [], []⟩ oldItems newItems).Remove
      = ((rangeOrder (diffCounts oldItems newItems)).filter
          (fun kv => decide (kv.2 < 0))).map Prod.fst := by
  unfold setListItemDiff
  rw [foldl_diffStep_Remove]
  simp

theorem Append_ID (rangeOrder : List (String × Int) → List (String × Int))
    (id : String) (oldItems newItems : List String) :
    ∀ it ∈ (setListItemDiff rangeOrder ⟨id, [], []⟩ oldItems newItems).Append, it.ID = "" := by
  unfold setListItemDiff
  rw [foldl_diffStep_Append]
  intro it hit
  simp only [List.nil_append, List.mem_map] at hit
  obtain ⟨kv, _, rfl⟩ := hit
  rfl

theorem mem_Append_iff (rangeOrder : List (String × Int) → List (String × Int))
    (hr : ValidOrder rangeOrder) (id : String) (oldItems newItems : List String) (v : String) :
    v ∈ (setListItemDiff rangeOrder ⟨id, [], []⟩ oldItems newItems).Append.map
        (fun it => it.Value) ↔ oldItems.count v < newItems.count v := by
  rw [Append_values]
  have hp := ((hr (diffCounts oldItems newItems)).filter (fun kv => decide (kv.2 > 0))).map Prod.fst
  rw [hp.mem_iff, mem_filter_keys _ (nodup_keys_diffCounts oldItems newItems) (fun c => c > 0)
    (by decide), mapGet_diffCounts]
  omega

theorem mem_Remove_iff (rangeOrder : List (String × Int) → List (String × Int))
    (hr : ValidOrder rangeOrder) (id : String) (oldItems newItems : List String) (v : String) :
    v ∈ (setListItemDiff rangeOrder ⟨id, [], []⟩ oldItems newItems).Remove
      ↔ newItems.count v < oldItems.count v := by
  rw [Remove_values]
  have hp := ((hr (diffCounts oldItems newItems)).filter (fun kv => decide (kv.2 < 0))).map Prod.fst
  rw [hp.mem_iff, mem_filter_keys _ (nodup_keys_diffCounts oldItems newItems) (fun c => c < 0)
    (by decide), mapGet_diffCounts]
  omega

theorem nodup_Append (rangeOrder : List (String × Int) → List (String × Int))
    (hr : ValidOrder rangeOrder) (id : String) (oldItems newItems : List String) :
    ((setListItemDiff rangeOrder ⟨id, [], []⟩ oldItems newItems).Append.map
        (fun it => it.Value)).Nodup := by
  rw [Append_values]
  have hp := ((hr (diffCounts oldItems newItems)).filter (fun kv => decide (kv.2 > 0))).map Prod.fst
  rw [hp.nodup_iff]
  exact nodup_filter_keys _ (nodup_keys_diffCounts oldItems newItems) _

theorem nodup_Remove (rangeOrder : List (String × Int) → List (String × Int))
    (hr : ValidOrder rangeOrder) (id : String) (oldItems newItems : List String) :
    (setListItemDiff rangeOrder ⟨id, [], []⟩ oldItems newItems).Remove.Nodup := by
  rw [Remove_values]
  have hp := ((hr (diffCounts oldItems newItems)).filter (fun kv => decide (kv.2 < 0))).map Prod.fst
  rw [hp.nodup_iff]
  exact nodup_filter_keys _ (nodup_keys_diffCounts oldItems newItems) _

theorem eq_singleton_of_nodup (l : List String) (a : String) (hn : l.Nodup)
    (h : ∀ v, v ∈ l ↔ v = a) : l = [a] := by
  have hp : l.Perm [a] := by
    rw [List.perm_ext_iff_of_nodup hn (List.nodup_singleton a)]
    intro v
    rw [h v, List.mem_singleton]
  exact List.perm_singleton.mp hp

theorem eq_nil_of_forall_not_mem (l : List String) (h : ∀ v, ¬ v ∈ l) : l = [] :=
  List.eq_nil_iff_forall_not_mem.mpr h

theorem mem_applyPatch_iff (rangeOrder : List (String × Int) → List (String × Int))
    (hr : ValidOrder rangeOrder) (id : String) (oldItems newItems : List String) (v : String) :
    v ∈ applyPatch oldItems (setListItemDiff rangeOrder ⟨id, [], []⟩ oldItems newItems)
      ↔ 0 < newItems.count v ∧ oldItems.count v ≤ newItems.count v := by
  unfold applyPatch
  rw [List.mem_filter, List.mem_append, mem_Append_iff rangeOrder hr, decide_eq_true_iff,
    mem_Remove_iff rangeOrder hr, ← List.count_pos_iff]
  omega

theorem validOrder_id : ValidOrder id := fun m => List.Perm.refl m

theorem validOrder_reverse : ValidOrder List.reverse := fun m => List.reverse_perm m

theorem count_abc_bcd (v : String) :
    List.count v ["a", "b", "c"] < List.count v ["b", "c", "d"] ↔ v = "d" := by
  by_cases ha : v = "a"
  · subst ha; decide
  by_cases hb : v = "b"
  · subst hb; decide
  by_cases hc : v = "c"
  · subst hc; decide
  by_cases hd : v = "d"
  · subst hd; decide
  have ha' : ¬ "a" = v := fun h => ha h.symm
  have hb' : ¬ "b" = v := fun h => hb h.symm
  have hc' : ¬ "c" = v := fun h => hc h.symm
  have hd' : ¬ "d" = v := fun h => hd h.symm
  simp [List.count_cons, ha, hb, hc, hd, ha', hb', hc', hd']

theorem count_bcd_abc (v : String) :
    List.count v ["b", "c", "d"] < List.count v ["a", "b", "c"] ↔ v = "a" := by
  by_cases ha : v = "a"
  · subst ha; decide
  by_cases hb : v = "b"
  · subst hb; decide
  by_cases hc : v = "c"
  · subst hc; decide
  by_cases hd : v = "d"
  · subst hd; decide
  have ha' : ¬ "a" = v := fun h => ha h.symm
  have hb' : ¬ "b" = v := fun h => hb h.symm
  have hc' : ¬ "c" = v := fun h => hc h.symm
  have hd' : ¬ "d" = v := fun h => hd h.symm
  simp [List.count_cons, ha, hb, hc, hd, ha', hb', hc', hd']

theorem count_xx_x (v : String) :
    (List.count v ["x", "x"] < List.count v ["x"] ↔ False)
      ∧ (List.count v ["x"] < List.count v ["x", "x"] ↔ v = "x") := by
  by_cases hx : v = "x"
  · subst hx; decide
  · have hx' : ¬ "x" = v := fun h => hx h.symm
    simp [List.count_cons, hx, hx']

theorem Append_eq_singleton (l : List TeamsListItem) (a : String)
    (hv : l.map (fun it => it.Value) = [a]) (hid : ∀ it ∈ l, it.ID = "") :
    l = [⟨"", a⟩] := by
  match l, hv, hid with
  | [x], hv, hid =>
    obtain ⟨i, val⟩ := x
    simp only [List.map_cons, List.map_nil, List.cons.injEq, and_true] at hv
    have hi : i = "" := hid ⟨i, val⟩ (List.mem_singleton.mpr rfl)
    rw [hi, hv]

/-! ## The item set differ: claims -/

/-- C1: started from a patch with empty `Append` and `Remove`, `setListItemDiff`
puts `v` into `Append` iff `v` occurs more often in `newItems` than in `oldItems`,
puts `v` into `Remove` iff `v` occurs more often in `oldItems` than in `newItems`,
and puts no value twice into `Append` or twice into `Remove`; old `["a","b","c"]`,
new `["b","c","d"]` gives `Append = ["d"]` and `Remove = ["a"]`.  This holds for
every order in which `range` may visit the map. -/
theorem setListItemDiff_counts (rangeOrder : List (String × Int) → List (String × Int))
    (hr : ValidOrder rangeOrder) (id : String) (oldItems newItems : List String) (v : String) :
    (v ∈ (setListItemDiff rangeOrder ⟨id, [], []⟩ oldItems newItems).Append.map
        (fun it => it.Value) ↔ oldItems.count v < newItems.count v)
    ∧ (v ∈ (setListItemDiff rangeOrder ⟨id, [], []⟩ oldItems newItems).Remove
        ↔ newItems.count v < oldItems.count v)
    ∧ ((setListItemDiff rangeOrder ⟨id, [], []⟩ oldItems newItems).Append.map
        (fun it => it.Value)).Nodup
    ∧ (setListItemDiff rangeOrder ⟨id, [], []⟩ oldItems newItems).Remove.Nodup
    ∧ (setListItemDiff rangeOrder ⟨id, [], []⟩ ["a", "b", "c"] ["b", "c", "d"]).Append
        = [⟨"", "d"⟩]
    ∧ (setListItemDiff rangeOrder ⟨id, [], []⟩ ["a", "b", "c"] ["b", "c", "d"]).Remove
        = ["a"] := by
  refine ⟨mem_Append_iff rangeOrder hr id oldItems newItems v,
    mem_Remove_iff rangeOrder hr id oldItems newItems v,
    nodup_Append rangeOrder hr id oldItems newItems,
    nodup_Remove rangeOrder hr id oldItems newItems, ?_, ?_⟩
  · apply Append_eq_singleton _ _ _ (Append_ID rangeOrder id _ _)
    apply eq_singleton_of_nodup _ _ (nodup_Append rangeOrder hr id _ _)
    intro u
    rw [mem_Append_iff rangeOrder hr, count_abc_bcd]
  · apply eq_singleton_of_nodup _ _ (nodup_Remove rangeOrder hr id _ _)
    intro u
    rw [mem_Remove_iff rangeOrder hr, count_bcd_abc]

/-- C1, witness: the map visited in reverse insertion order, old `["a","b","c"]`,
new `["b","c","d"]`, value `"d"`. -/
theorem setListItemDiff_counts_witness :
    ValidOrder List.reverse
    ∧ ("d" ∈ (setListItemDiff List.reverse ⟨"res1", [], []⟩ ["a", "b", "c"]
          ["b", "c", "d"]).Append.map (fun it => it.Value)
        ↔ List.count "d" ["a", "b", "c"] < List.count "d" ["b", "c", "d"])
    ∧ (setListItemDiff List.reverse ⟨"res1", [], []⟩ ["a", "b", "c"] ["b", "c", "d"]).Remove
        = ["a"] :=
  ⟨validOrder_reverse,
    (setListItemDiff_counts List.reverse validOrder_reverse "res1" ["a", "b", "c"]
      ["b", "c", "d"] "d").1,
    (setListItemDiff_counts List.reverse validOrder_reverse "res1" ["a", "b", "c"]
      ["b", "c", "d"] "d").2.2.2.2.2⟩

/-- C2, as stated, fails: with old `["x","x"]` and new `["x"]` the patch removes
`"x"`, and `old` with the patch applied is empty, not the set of `new`.  Under the
reading in which a removal deletes one occurrence only, old `["x","x"]` and new `[]`
leave `"x"` behind. -/
theorem applyPatch_not_sameSet :
    ValidOrder id
    ∧ (setListItemDiff id ⟨"", [], []⟩ ["x", "x"] ["x"]) = ⟨"", [], ["x"]⟩
    ∧ applyPatch ["x", "x"] (setListItemDiff id ⟨"", [], []⟩ ["x", "x"] ["x"]) = []
    ∧ ¬ SameSet (applyPatch ["x", "x"] (setListItemDiff id ⟨"", [], []⟩ ["x", "x"] ["x"])) ["x"]
    ∧ ¬ SameSet (applyPatchOnce ["x", "x"] (setListItemDiff id ⟨"", [], []⟩ ["x", "x"] [])) [] :=
  ⟨validOrder_id, by decide, by decide, by decide, by decide⟩

/-- C2, amended: `old` with the patch of `setListItemDiff old new` applied (every
`Append` value added, then every `Remove` value deleted) has the same set of
elements as `new` exactly when no value of `new` occurs more often in `old` than in
`new`; this is so whenever `old` has no repeated value. -/
theorem applyPatch_sameSet_iff (rangeOrder : List (String × Int) → List (String × Int))
    (hr : ValidOrder rangeOrder) (id : String) (oldItems newItems : List String) :
    (SameSet (applyPatch oldItems (setListItemDiff rangeOrder ⟨id, [], []⟩ oldItems newItems))
        newItems
      ↔ ∀ v ∈ newItems, oldItems.count v ≤ newItems.count v)
    ∧ (oldItems.Nodup →
        SameSet (applyPatch oldItems (setListItemDiff rangeOrder ⟨id, [], []⟩ oldItems newItems))
          newItems) := by
  have key : SameSet (applyPatch oldItems
        (setListItemDiff rangeOrder ⟨id, [], []⟩ oldItems newItems)) newItems
      ↔ ∀ v ∈ newItems, oldItems.count v ≤ newItems.count v := by
    unfold SameSet
    constructor
    · intro h v hv
      exact ((mem_applyPatch_iff rangeOrder hr id oldItems newItems v).mp ((h v).mpr hv)).2
    · intro h v
      rw [mem_applyPatch_iff rangeOrder hr]
      constructor
      · intro hv
        exact List.count_pos_iff.mp hv.1
      · intro hv
        exact ⟨List.count_pos_iff.mpr hv, h v hv⟩
  refine ⟨key, fun hn => key.mpr ?_⟩
  intro v hv
  have h1 : oldItems.count v ≤ 1 := List.nodup_iff_count_le_one.mp hn v
  have h2 : 0 < newItems.count v := List.count_pos_iff.mpr hv
  omega

/-- C2, amended, witness: old `["a","b","c"]`, new `["b","c","d"]`. -/
theorem applyPatch_sameSet_iff_witness :
    ValidOrder List.reverse ∧ ["a", "b", "c"].Nodup
    ∧ SameSet (applyPatch ["a", "b", "c"]
        (setListItemDiff List.reverse ⟨"res1", [], []⟩ ["a", "b", "c"] ["b", "c", "d"]))
        ["b", "c", "d"] :=
  ⟨validOrder_reverse, by decide,
    (applyPatch_sameSet_iff List.reverse validOrder_reverse "res1" ["a", "b", "c"]
      ["b", "c", "d"]).2 (by decide)⟩

/-- C3, as stated, fails: old `["x","x"]` and new `["x"]` contain the same set of
values, and the patch is not empty: `Remove = ["x"]`. -/
theorem setListItemDiff_sameSet_not_empty :
    ValidOrder id ∧ SameSet ["x", "x"] ["x"]
    ∧ (setListItemDiff id ⟨"", [], []⟩ ["x", "x"] ["x"]).Append = []
    ∧ (setListItemDiff id ⟨"", [], []⟩ ["x", "x"] ["x"]).Remove = ["x"] :=
  ⟨validOrder_id, by decide, by decide, by decide⟩

/-- C3, amended: `setListItemDiff` produces an empty patch (`Append` and `Remove`
both empty) exactly when `oldItems` and `newItems` hold every value the same number
of times, that is, when one is a reordering of the other.  Old `["x","x"]`, new
`["x"]` gives `Append = []` and `Remove = ["x"]`. -/
theorem setListItemDiff_empty_iff (rangeOrder : List (String × Int) → List (String × Int))
    (hr : ValidOrder rangeOrder) (id : String) (oldItems newItems : List String) :
    ((setListItemDiff rangeOrder ⟨id, [], []⟩ oldItems newItems).Append = []
        ∧ (setListItemDiff rangeOrder ⟨id, [], []⟩ oldItems newItems).Remove = []
      ↔ oldItems.Perm newItems)
    ∧ (setListItemDiff rangeOrder ⟨id, [], []⟩ ["x", "x"] ["x"]).Append = []
    ∧ (setListItemDiff rangeOrder ⟨id, [], []⟩ ["x", "x"] ["x"]).Remove = ["x"] := by
  refine ⟨?_, ?_, ?_⟩
  · rw [List.perm_iff_count]
    constructor
    · rintro ⟨ha, hrm⟩ v
      have h1 := mem_Append_iff rangeOrder hr id oldItems newItems v
      have h2 := mem_Remove_iff rangeOrder hr id oldItems newItems v
      rw [ha] at h1
      rw [hrm] at h2
      simp only [List.map_nil, List.not_mem_nil, false_iff, not_lt] at h1 h2
      omega
    · intro h
      constructor
      · have h1 : (setListItemDiff rangeOrder ⟨id, [], []⟩ oldItems newItems).Append.map
            (fun it => it.Value) = [] := by
          apply eq_nil_of_forall_not_mem
          intro v
          rw [mem_Append_iff rangeOrder hr, h v]
          omega
        exact List.map_eq_nil_iff.mp h1
      · apply eq_nil_of_forall_not_mem
        intro v
        rw [mem_Remove_iff rangeOrder hr, h v]
        omega
  · have h1 : (setListItemDiff rangeOrder ⟨id, [], []⟩ ["x", "x"] ["x"]).Append.map
        (fun it => it.Value) = [] := by
      apply eq_nil_of_forall_not_mem
      intro v
      rw [mem_Append_iff rangeOrder hr, (count_xx_x v).1]
      exact not_false
    exact List.map_eq_nil_iff.mp h1
  · apply eq_singleton_of_nodup _ _ (nodup_Remove rangeOrder hr id _ _)
    intro u
    rw [mem_Remove_iff rangeOrder hr, (count_xx_x u).2]

/-- C3, amended, witness: old `["b","a"]` is a reordering of new `["a","b"]`. -/
theorem setListItemDiff_empty_iff_witness :
    ValidOrder List.reverse ∧ ["b", "a"].Perm ["a", "b"]
    ∧ (setListItemDiff List.reverse ⟨"res1", [], []⟩ ["b", "a"] ["a", "b"]).Append = []
    ∧ (setListItemDiff List.reverse ⟨"res1", [], []⟩ ["b", "a"] ["a", "b"]).Remove = [] :=
  ⟨validOrder_reverse, List.Perm.swap "a" "b" [],
    (setListItemDiff_empty_iff List.reverse validOrder_reverse "res1" ["b", "a"]
      ["a", "b"]).1.mpr (List.Perm.swap "a" "b" [])⟩

/-! ## Read -/

theorem read_notFound_eq {W : Type} (m : Provider W) (d : ResourceData) (w w1 : W) (e : String)
    (hfetch : m.client.TeamsList w d.account_id d.id = (.error e, w1))
    (h404 : stringsContains e "HTTP status 404" = true) :
    resourceCloudflareTeamsListRead m d w
      = { err := none, d := { d with id := "" }, w := w1,
          trace := [⟨.TeamsList d.account_id d.id, some e⟩] } := by
  unfold resourceCloudflareTeamsListRead
  simp only [hfetch, h404, if_true]

theorem read_fetchError_eq {W : Type} (m : Provider W) (d : ResourceData) (w w1 : W)
    (e : String) (hfetch : m.client.TeamsList w d.account_id d.id = (.error e, w1))
    (h404 : stringsContains e "HTTP status 404" = false) :
    resourceCloudflareTeamsListRead m d w
      = { err := some ("Error finding Teams List " ++ m.quote d.id ++ ": " ++ e), d := d, w := w1,
          trace := [⟨.TeamsList d.account_id d.id, some e⟩] } := by
  unfold resourceCloudflareTeamsListRead
  simp [hfetch, h404]

theorem read_itemsError_eq {W : Type} (m : Provider W) (d : ResourceData) (w w1 w2 : W)
    (list : TeamsList) (e : String)
    (hfetch : m.client.TeamsList w d.account_id d.id = (.ok list, w1))
    (hitems : m.client.TeamsListItems w1 d.account_id d.id = (.error e, w2)) :
    resourceCloudflareTeamsListRead m d w
      = { err := some ("Error finding Teams List " ++ m.quote d.id ++ ": " ++ e),
          d := { d with name := list.Name, type := list.Type_, description := list.Description },
          w := w2,
          trace := [⟨.TeamsList d.account_id d.id, none⟩,
                    ⟨.TeamsListItems d.account_id d.id, some e⟩] } := by
  unfold resourceCloudflareTeamsListRead
  simp [hfetch, hitems]

theorem read_ok_eq {W : Type} (m : Provider W) (d : ResourceData) (w w1 w2 : W)
    (list : TeamsList) (listItems : List TeamsListItem)
    (hfetch : m.client.TeamsList w d.account_id d.id = (.ok list, w1))
    (hitems : m.client.TeamsListItems w1 d.account_id d.id = (.ok listItems, w2)) :
    resourceCloudflareTeamsListRead m d w
      = { err := none,
          d := { d with name := list.Name, type := list.Type_, description := list.Description,
                        items := convertListItemsToSchema listItems },
          w := w2,
          trace := [⟨.TeamsList d.account_id d.id, none⟩,
                    ⟨.TeamsListItems d.account_id d.id, none⟩] } := by
  unfold resourceCloudflareTeamsListRead
  simp [hfetch, hitems]

/-- The four ways a Read can go. -/
theorem read_cases {W : Type} (m : Provider W) (d : ResourceData) (w : W) :
    (∃ e w1, m.client.TeamsList w d.account_id d.id = (.error e, w1)
        ∧ stringsContains e "HTTP status 404" = true)
    ∨ (∃ e w1, m.client.TeamsList w d.account_id d.id = (.error e, w1)
        ∧ stringsContains e "HTTP status 404" = false)
    ∨ (∃ list w1 e w2, m.client.TeamsList w d.account_id d.id = (.ok list, w1)
        ∧ m.client.TeamsListItems w1 d.account_id d.id = (.error e, w2))
    ∨ (∃ list w1 listItems w2, m.client.TeamsList w d.account_id d.id = (.ok list, w1)
        ∧ m.client.TeamsListItems w1 d.account_id d.id = (.ok listItems, w2)) := by
  rcases hf : m.client.TeamsList w d.account_id d.id with ⟨r, w1⟩
  cases r with
  | error e =>
    cases h : stringsContains e "HTTP status 404"
    · exact Or.inr (Or.inl ⟨e, w1, rfl, h⟩)
    · exact Or.inl ⟨e, w1, rfl, h⟩
  | ok list =>
    rcases hi : m.client.TeamsListItems w1 d.account_id d.id with ⟨r2, w2⟩
    cases r2 with
    | error e => exact Or.inr (Or.inr (Or.inl ⟨list, w1, e, w2, rfl, hi⟩))
    | ok listItems => exact Or.inr (Or.inr (Or.inr ⟨list, w1, listItems, w2, rfl, hi⟩))

theorem read_trace_no_patch {W : Type} (m : Provider W) (d : ResourceData) (w : W) :
    ∀ ev ∈ (resourceCloudflareTeamsListRead m d w).trace, ev.call.isPatch = false := by
  rcases read_cases m d w with ⟨e, w1, hf, h⟩ | ⟨e, w1, hf, h⟩ | ⟨l, w1, e, w2, hf, hi⟩
    | ⟨l, w1, li, w2, hf, hi⟩
  · rw [read_notFound_eq m d w w1 e hf h]; simp [Call.isPatch]
  · rw [read_fetchError_eq m d w w1 e hf h]; simp [Call.isPatch]
  · rw [read_itemsError_eq m d w w1 w2 l e hf hi]; simp [Call.isPatch]
  · rw [read_ok_eq m d w w1 w2 l li hf hi]; simp [Call.isPatch]

theorem read_surfaces_failures {W : Type} (m : Provider W) (d : ResourceData) (w : W) :
    ∀ ev ∈ (resourceCloudflareTeamsListRead m d w).trace,
      ev.err.isSome = true → ev.isNotFoundFetch = false →
        (resourceCloudflareTeamsListRead m d w).err.isSome = true := by
  rcases read_cases m d w with ⟨e, w1, hf, h⟩ | ⟨e, w1, hf, h⟩ | ⟨l, w1, e, w2, hf, hi⟩
    | ⟨l, w1, li, w2, hf, hi⟩
  · rw [read_notFound_eq m d w w1 e hf h]
    intro ev hev _ hnf
    simp only [List.mem_singleton] at hev
    subst hev
    simp [Event.isNotFoundFetch, h] at hnf
  · rw [read_fetchError_eq m d w w1 e hf h]; simp
  · rw [read_itemsError_eq m d w w1 w2 l e hf hi]; simp
  · rw [read_ok_eq m d w w1 w2 l li hf hi]
    intro ev hev hs
    simp only [List.mem_cons, List.mem_singleton, List.not_mem_nil, or_false] at hev
    rcases hev with rfl | rfl <;> simp at hs

theorem read_account_id {W : Type} (m : Provider W) (d : ResourceData) (w : W) :
    (resourceCloudflareTeamsListRead m d w).d.account_id = d.account_id := by
  rcases read_cases m d w with ⟨e, w1, hf, h⟩ | ⟨e, w1, hf, h⟩ | ⟨l, w1, e, w2, hf, hi⟩
    | ⟨l, w1, li, w2, hf, hi⟩
  · rw [read_notFound_eq m d w w1 e hf h]
  · rw [read_fetchError_eq m d w w1 e hf h]
  · rw [read_itemsError_eq m d w w1 w2 l e hf hi]
  · rw [read_ok_eq m d w w1 w2 l li hf hi]

theorem read_first_call {W : Type} (m : Provider W) (d : ResourceData) (w : W) :
    ((resourceCloudflareTeamsListRead m d w).trace.head?).map (fun ev => ev.call)
      = some (.TeamsList d.account_id d.id) := by
  rcases read_cases m d w with ⟨e, w1, hf, h⟩ | ⟨e, w1, hf, h⟩ | ⟨l, w1, e, w2, hf, hi⟩
    | ⟨l, w1, li, w2, hf, hi⟩
  · rw [read_notFound_eq m d w w1 e hf h]; rfl
  · rw [read_fetchError_eq m d w w1 e hf h]; rfl
  · rw [read_itemsError_eq m d w w1 w2 l e hf hi]; rfl
  · rw [read_ok_eq m d w w1 w2 l li hf hi]; rfl

/-- C4: when the entity fetch fails with an error whose text contains
`"HTTP status 404"`, Read sets the id to the empty string (and changes nothing
else), returns no error, and its only client call is the entity fetch: no items
fetch is made. -/
theorem read_notFound_clears_id {W : Type} (m : Provider W) (d : ResourceData) (w w1 : W) (e : String)
    (hfetch : m.client.TeamsList w d.account_id d.id = (.error e, w1))
    (h404 : stringsContains e "HTTP status 404" = true) :
    (resourceCloudflareTeamsListRead m d w).d.id = ""
    ∧ (resourceCloudflareTeamsListRead m d w).d = { d with id := "" }
    ∧ (resourceCloudflareTeamsListRead m d w).err = none
    ∧ (resourceCloudflareTeamsListRead m d w).trace = [⟨.TeamsList d.account_id d.id, some e⟩]
    ∧ (∀ ev ∈ (resourceCloudflareTeamsListRead m d w).trace, ev.call.isItemsFetch = false) := by
  rw [read_notFound_eq m d w w1 e hfetch h404]
  simp [Call.isItemsFetch]

/-- C4, witness: the entity fetch answers `"HTTP status 404: list not found"`. -/
theorem read_notFound_clears_id_witness :
    notFoundProvider.client.TeamsList () sampleData.account_id sampleData.id
        = (.error "HTTP status 404: list not found", ())
    ∧ stringsContains "HTTP status 404: list not found" "HTTP status 404" = true
    ∧ (resourceCloudflareTeamsListRead notFoundProvider sampleData ()).d.id = ""
    ∧ (resourceCloudflareTeamsListRead notFoundProvider sampleData ()).err = none :=
  ⟨rfl, by decide,
    (read_notFound_clears_id notFoundProvider sampleData () () "HTTP status 404: list not found" rfl
      (by decide)).1,
    (read_notFound_clears_id notFoundProvider sampleData () () "HTTP status 404: list not found" rfl
      (by decide)).2.2.1⟩

/-- C5, as stated, fails: when the entity fetch succeeds and the items fetch fails,
Read returns an error after it has overwritten `name`, `type` and `description`
with the fetched values, so the local state is not what it was before the call. -/
theorem read_itemsError_changes_state :
    (resourceCloudflareTeamsListRead itemsFailProvider sampleData ()).err
        = some "Error finding Teams List \"res1\": HTTP status 500"
    ∧ (resourceCloudflareTeamsListRead itemsFailProvider sampleData ()).trace
        = [⟨.TeamsList "acct1" "res1", none⟩, ⟨.TeamsListItems "acct1" "res1", some "HTTP status 500"⟩]
    ∧ sampleData.name = "local name"
    ∧ (resourceCloudflareTeamsListRead itemsFailProvider sampleData ()).d.name = "remote name"
    ∧ (resourceCloudflareTeamsListRead itemsFailProvider sampleData ()).d ≠ sampleData :=
  ⟨by decide, by decide, by decide, by decide, by decide⟩

/-- C5, amended: whenever Read fails for a reason other than a not-found entity
fetch, it returns an error.  After an entity fetch that failed with a non-404
error the local state is equal to the state before the call.  After a successful
entity fetch followed by a failed items fetch, `id`, `account_id` and `items` are as
before the call and `name`, `type` and `description` hold the fetched entity's
values. -/
theorem read_failure {W : Type} (m : Provider W) (d : ResourceData) (w : W) :
    (∀ e w1, m.client.TeamsList w d.account_id d.id = (.error e, w1) →
        stringsContains e "HTTP status 404" = false →
        (resourceCloudflareTeamsListRead m d w).err
            = some ("Error finding Teams List " ++ m.quote d.id ++ ": " ++ e)
        ∧ (resourceCloudflareTeamsListRead m d w).d = d)
    ∧ (∀ list w1 e w2, m.client.TeamsList w d.account_id d.id = (.ok list, w1) →
        m.client.TeamsListItems w1 d.account_id d.id = (.error e, w2) →
        (resourceCloudflareTeamsListRead m d w).err
            = some ("Error finding Teams List " ++ m.quote d.id ++ ": " ++ e)
        ∧ (resourceCloudflareTeamsListRead m d w).d
            = { d with name := list.Name, type := list.Type_,
                       description := list.Description }) := by
  constructor
  · intro e w1 hf h
    rw [read_fetchError_eq m d w w1 e hf h]
    exact ⟨rfl, rfl⟩
  · intro list w1 e w2 hf hi
    rw [read_itemsError_eq m d w w1 w2 list e hf hi]
    exact ⟨rfl, rfl⟩

/-- C5, amended, witness: an unreachable remote side leaves the state as it was; a
failed items fetch leaves `id`, `account_id` and `items` as they were. -/
theorem read_failure_witness :
    offlineProvider.client.TeamsList () sampleData.account_id sampleData.id
        = (.error "connection refused", ())
    ∧ stringsContains "connection refused" "HTTP status 404" = false
    ∧ (resourceCloudflareTeamsListRead offlineProvider sampleData ()).d = sampleData
    ∧ (resourceCloudflareTeamsListRead itemsFailProvider sampleData ()).d
        = { sampleData with name := "remote name", type := "URL", description := "remote text" } :=
  ⟨rfl, by decide,
    ((read_failure offlineProvider sampleData ()).1 "connection refused" () rfl (by decide)).2,
    ((read_failure itemsFailProvider sampleData ()).2 sampleList () "HTTP status 500" () rfl
      rfl).2⟩

/-! ## Update -/

theorem hasChange_eq_false (d : ResourceData) (h : d.itemsPrior = d.items) :
    d.HasChange = false := by
  simp [ResourceData.HasChange, ResourceData.GetChange, h]

theorem update_error_eq {W : Type} (m : Provider W) (d : ResourceData) (w w1 : W) (e : String)
    (hu : m.client.UpdateTeamsList w d.account_id
        ⟨d.id, d.name, d.type, d.description, []⟩ = (.error e, w1)) :
    resourceCloudflareTeamsListUpdate m d w
      = { err := some ("error updating Teams List for account " ++ m.quote d.account_id ++ ": "
            ++ e),
          d := d, w := w1,
          trace := [⟨.UpdateTeamsList d.account_id ⟨d.id, d.name, d.type, d.description, []⟩,
            some e⟩] } := by
  unfold resourceCloudflareTeamsListUpdate
  simp [hu]

theorem update_emptyID_eq {W : Type} (m : Provider W) (d : ResourceData) (w w1 : W)
    (teamsList : TeamsList)
    (hu : m.client.UpdateTeamsList w d.account_id
        ⟨d.id, d.name, d.type, d.description, []⟩ = (.ok teamsList, w1))
    (hid : teamsList.ID = "") :
    resourceCloudflareTeamsListUpdate m d w
      = { err := some "failed to find Teams List ID in update response; resource was empty",
          d := d, w := w1,
          trace := [⟨.UpdateTeamsList d.account_id ⟨d.id, d.name, d.type, d.description, []⟩,
            none⟩] } := by
  unfold resourceCloudflareTeamsListUpdate
  simp [hu, hid]

theorem update_unchanged_eq {W : Type} (m : Provider W) (d : ResourceData) (w w1 : W)
    (teamsList : TeamsList)
    (hu : m.client.UpdateTeamsList w d.account_id
        ⟨d.id, d.name, d.type, d.description, []⟩ = (.ok teamsList, w1))
    (hid : teamsList.ID ≠ "") (hc : d.HasChange = false) :
    resourceCloudflareTeamsListUpdate m d w
      = { resourceCloudflareTeamsListRead m d w1 with
          trace := ⟨.UpdateTeamsList d.account_id ⟨d.id, d.name, d.type, d.description, []⟩,
            none⟩ :: (resourceCloudflareTeamsListRead m d w1).trace } := by
  unfold resourceCloudflareTeamsListUpdate
  simp [hu, hid, hc]

theorem update_patchError_eq {W : Type} (m : Provider W) (d : ResourceData) (w w1 w2 : W)
    (teamsList : TeamsList) (e : String)
    (hu : m.client.UpdateTeamsList w d.account_id
        ⟨d.id, d.name, d.type, d.description, []⟩ = (.ok teamsList, w1))
    (hid : teamsList.ID ≠ "") (hc : d.HasChange = true)
    (hp : m.client.PatchTeamsList w1 d.account_id
        (setListItemDiff m.rangeOrder ⟨d.id, [], []⟩ d.itemsPrior d.items) = (.error e, w2)) :
    resourceCloudflareTeamsListUpdate m d w
      = { err := some ("error updating Teams List for account " ++ m.quote d.account_id ++ ": "
            ++ e),
          d := d, w := w2,
          trace := [⟨.UpdateTeamsList d.account_id ⟨d.id, d.name, d.type, d.description, []⟩,
              none⟩,
            ⟨.PatchTeamsList d.account_id
              (setListItemDiff m.rangeOrder ⟨d.id, [], []⟩ d.itemsPrior d.items), some e⟩] } := by
  unfold resourceCloudflareTeamsListUpdate
  simp only [expandInterfaceToStringList, ResourceData.GetChange] at *
  simp [hu, hid, hc, hp]

theorem update_patched_eq {W : Type} (m : Provider W) (d : ResourceData) (w w1 w2 : W)
    (teamsList l : TeamsList)
    (hu : m.client.UpdateTeamsList w d.account_id
        ⟨d.id, d.name, d.type, d.description, []⟩ = (.ok teamsList, w1))
    (hid : teamsList.ID ≠ "") (hc : d.HasChange = true)
    (hp : m.client.PatchTeamsList w1 d.account_id
        (setListItemDiff m.rangeOrder ⟨d.id, [], []⟩ d.itemsPrior d.items) = (.ok l, w2)) :
    resourceCloudflareTeamsListUpdate m d w
      = { resourceCloudflareTeamsListRead m d w2 with
          trace := ⟨.UpdateTeamsList d.account_id ⟨d.id, d.name, d.type, d.description, []⟩,
              none⟩
            :: ⟨.PatchTeamsList d.account_id
              (setListItemDiff m.rangeOrder ⟨d.id, [], []⟩ d.itemsPrior d.items), none⟩
            :: (resourceCloudflareTeamsListRead m d w2).trace } := by
  unfold resourceCloudflareTeamsListUpdate
  simp only [expandInterfaceToStringList, ResourceData.GetChange] at *
  simp [hu, hid, hc, hp]

/-- C6: when the desired items are equal by value to the last-known items, Update
makes no `PatchTeamsList` call.  Its first call is the scalar update carrying the id,
name, type and description; when that call fails or answers with an empty id it is
the only call, otherwise the calls of the trailing Read follow it and nothing
else, and Update returns what that Read returns. -/
theorem update_unchanged_items {W : Type} (m : Provider W) (d : ResourceData) (w : W)
    (h : d.itemsPrior = d.items) :
    (∀ ev ∈ (resourceCloudflareTeamsListUpdate m d w).trace, ev.call.isPatch = false)
    ∧ (∀ e w1, m.client.UpdateTeamsList w d.account_id
          ⟨d.id, d.name, d.type, d.description, []⟩ = (.error e, w1) →
        (resourceCloudflareTeamsListUpdate m d w).trace
          = [⟨.UpdateTeamsList d.account_id ⟨d.id, d.name, d.type, d.description, []⟩, some e⟩])
    ∧ (∀ teamsList w1, m.client.UpdateTeamsList w d.account_id
          ⟨d.id, d.name, d.type, d.description, []⟩ = (.ok teamsList, w1) →
        teamsList.ID = "" →
        (resourceCloudflareTeamsListUpdate m d w).trace
          = [⟨.UpdateTeamsList d.account_id ⟨d.id, d.name, d.type, d.description, []⟩, none⟩])
    ∧ (∀ teamsList w1, m.client.UpdateTeamsList w d.account_id
          ⟨d.id, d.name, d.type, d.description, []⟩ = (.ok teamsList, w1) →
        teamsList.ID ≠ "" →
        (resourceCloudflareTeamsListUpdate m d w).trace
          = ⟨.UpdateTeamsList d.account_id ⟨d.id, d.name, d.type, d.description, []⟩, none⟩
              :: (resourceCloudflareTeamsListRead m d w1).trace
        ∧ (resourceCloudflareTeamsListUpdate m d w).err
            = (resourceCloudflareTeamsListRead m d w1).err
        ∧ (resourceCloudflareTeamsListUpdate m d w).d
            = (resourceCloudflareTeamsListRead m d w1).d) := by
  have hc := hasChange_eq_false d h
  refine ⟨?_, ?_, ?_, ?_⟩
  · rcases hu : m.client.UpdateTeamsList w d.account_id
        ⟨d.id, d.name, d.type, d.description, []⟩ with ⟨r, w1⟩
    cases r with
    | error e =>
      rw [update_error_eq m d w w1 e hu]
      simp [Call.isPatch]
    | ok teamsList =>
      by_cases hid : teamsList.ID = ""
      · rw [update_emptyID_eq m d w w1 teamsList hu hid]
        simp [Call.isPatch]
      · rw [update_unchanged_eq m d w w1 teamsList hu hid hc]
        intro ev hev
        simp only [List.mem_cons] at hev
        rcases hev with rfl | hev
        · rfl
        · exact read_trace_no_patch m d w1 ev hev
  · intro e w1 hu
    rw [update_error_eq m d w w1 e hu]
  · intro teamsList w1 hu hid
    rw [update_emptyID_eq m d w w1 teamsList hu hid]
  · intro teamsList w1 hu hid
    rw [update_unchanged_eq m d w w1 teamsList hu hid hc]
    exact ⟨rfl, rfl, rfl⟩

/-- C6, witness: the sample data, whose desired items equal the last-known ones,
updated against a remote side on which every call succeeds. -/
theorem update_unchanged_items_witness :
    sampleData.itemsPrior = sampleData.items
    ∧ (∀ ev ∈ (resourceCloudflareTeamsListUpdate okProvider sampleData ()).trace,
        ev.call.isPatch = false)
    ∧ (resourceCloudflareTeamsListUpdate okProvider sampleData ()).trace
        = ⟨.UpdateTeamsList sampleData.account_id
            ⟨sampleData.id, sampleData.name, sampleData.type, sampleData.description, []⟩, none⟩
          :: (resourceCloudflareTeamsListRead okProvider sampleData ()).trace :=
  ⟨rfl, (update_unchanged_items okProvider sampleData () rfl).1,
    ((update_unchanged_items okProvider sampleData () rfl).2.2.2 sampleList () rfl
      (by decide)).1⟩

/-! ## Delete -/

/-- C9: Delete returns an error if and only if the `DeleteTeamsList` call returns
one.  When the call fails it is the only client call (no Read follows) and the
resource data, the id included, is unchanged.  When the call succeeds Delete
returns no error, whatever the follow-up Read returns. -/
theorem delete_error_iff {W : Type} (m : Provider W) (d : ResourceData) (w : W) :
    ((resourceCloudflareTeamsListDelete m d w).err.isSome = true
        ↔ (m.client.DeleteTeamsList w d.account_id d.id).1.isSome = true)
    ∧ (∀ e w1, m.client.DeleteTeamsList w d.account_id d.id = (some e, w1) →
        (resourceCloudflareTeamsListDelete m d w).err
            = some ("error deleting Teams List for account " ++ m.quote d.account_id ++ ": "
                ++ e)
        ∧ (resourceCloudflareTeamsListDelete m d w).trace
            = [⟨.DeleteTeamsList d.account_id d.id, some e⟩]
        ∧ (resourceCloudflareTeamsListDelete m d w).d = d)
    ∧ (∀ w1, m.client.DeleteTeamsList w d.account_id d.id = (none, w1) →
        (resourceCloudflareTeamsListDelete m d w).err = none
        ∧ (resourceCloudflareTeamsListDelete m d w).trace
            = ⟨.DeleteTeamsList d.account_id d.id, none⟩
                :: (resourceCloudflareTeamsListRead m d w1).trace
        ∧ (resourceCloudflareTeamsListDelete m d w).d
            = (resourceCloudflareTeamsListRead m d w1).d) := by
  refine ⟨?_, ?_, ?_⟩
  · unfold resourceCloudflareTeamsListDelete
    rcases hd : m.client.DeleteTeamsList w d.account_id d.id with ⟨r, w1⟩
    cases r <;> simp [hd]
  · intro e w1 hd
    unfold resourceCloudflareTeamsListDelete
    simp [hd]
  · intro w1 hd
    unfold resourceCloudflareTeamsListDelete
    simp [hd]

/-- C9, witness: a failed delete call makes no Read and keeps the data; a
successful one followed by a Read that fails on its items fetch returns no error. -/
theorem delete_error_iff_witness :
    offlineProvider.client.DeleteTeamsList () sampleData.account_id sampleData.id
        = (some "connection refused", ())
    ∧ (resourceCloudflareTeamsListDelete offlineProvider sampleData ()).trace
        = [⟨.DeleteTeamsList sampleData.account_id sampleData.id, some "connection refused"⟩]
    ∧ (resourceCloudflareTeamsListDelete offlineProvider sampleData ()).d = sampleData
    ∧ (resourceCloudflareTeamsListRead itemsFailProvider sampleData ()).err.isSome = true
    ∧ (resourceCloudflareTeamsListDelete itemsFailProvider sampleData ()).err = none :=
  ⟨rfl,
    ((delete_error_iff offlineProvider sampleData ()).2.1 "connection refused" () rfl).2.1,
    ((delete_error_iff offlineProvider sampleData ()).2.1 "connection refused" () rfl).2.2,
    by decide,
    ((delete_error_iff itemsFailProvider sampleData ()).2.2 () rfl).1⟩

/-! ## Splitting the import identifier -/

theorem startsWith_slash (c : Char) (s : List Char) :
    startsWith (c :: s) ['/'] = decide (c = '/') := by
  cases s <;> simp [startsWith]

theorem cutFirst_slash_none (s : List Char) (h : '/' ∉ s) : cutFirst ['/'] s = none := by
  induction s with
  | nil => simp [cutFirst, startsWith]
  | cons c t ih =>
    rw [List.mem_cons, not_or] at h
    have hc : ¬ c = '/' := fun hc => h.1 hc.symm
    simp [cutFirst, startsWith_slash, hc, ih h.2]

theorem cutFirst_slash_append (a r : List Char) (h : '/' ∉ a) :
    cutFirst ['/'] (a ++ '/' :: r) = some (a, r) := by
  induction a with
  | nil => simp [cutFirst, startsWith_slash]
  | cons c t ih =>
    rw [List.mem_cons, not_or] at h
    have hc : ¬ c = '/' := fun hc => h.1 hc.symm
    simp [cutFirst, startsWith_slash, hc, ih h.2]

theorem exists_first_slash (s : List Char) (h : '/' ∈ s) :
    ∃ a r, s = a ++ '/' :: r ∧ '/' ∉ a := by
  induction s with
  | nil => simp at h
  | cons c t ih =>
    by_cases hc : c = '/'
    · exact ⟨[], t, by simp [hc], by simp⟩
    · rw [List.mem_cons] at h
      rcases h with h | h
      · exact absurd h.symm hc
      · obtain ⟨a, r, hs, ha⟩ := ih h
        refine ⟨c :: a, r, by simp [hs], ?_⟩
        rw [List.mem_cons, not_or]
        exact ⟨fun h' => hc h'.symm, ha⟩

theorem splitLoop_slash_none (i : Nat) (s : List Char) (h : '/' ∉ s) :
    splitLoop ['/'] i s = [s] := by
  cases i with
  | zero => rfl
  | succ i => simp [splitLoop, cutFirst_slash_none s h]

theorem stringsSplitN_no_slash (s : String) (h : '/' ∉ s.data) :
    stringsSplitN s "/" 2 = [s] := by
  unfold stringsSplitN
  have hsep : ("/" : String).data = ['/'] := rfl
  rw [hsep, splitLoop_slash_none _ _ h]
  simp

theorem stringsSplitN_slash (s : String) (a r : List Char) (hs : s.data = a ++ '/' :: r)
    (h : '/' ∉ a) : stringsSplitN s "/" 2 = [String.mk a, String.mk r] := by
  unfold stringsSplitN
  have hsep : ("/" : String).data = ['/'] := rfl
  have hlen : min 2 (s.length + 1) - 1 = 1 := by
    have : 1 ≤ s.length := by
      rw [String.length, hs, List.length_append, List.length_cons]
      omega
    omega
  rw [hsep, hlen, hs]
  simp [splitLoop, cutFirst_slash_append a r h]

theorem data_owner_slash (owner res : String) :
    (owner ++ "/" ++ res).data = owner.data ++ '/' :: res.data := by
  simp [String.data_append]

/-! ## Import -/

theorem import_malformed_eq {W : Type} (m : Provider W) (d : ResourceData) (w : W)
    (h : '/' ∉ d.id.data) :
    resourceCloudflareTeamsListImport m d w
      = { resources := [],
          err := some ("invalid id (\"" ++ d.id
            ++ "\") specified, should be in format \"accountID/accessApplicationID\""),
          d := d, w := w, trace := [] } := by
  unfold resourceCloudflareTeamsListImport
  rw [stringsSplitN_no_slash d.id h]

theorem import_split_eq {W : Type} (m : Provider W) (d : ResourceData) (w : W)
    (owner res : String) (hid : d.id = owner ++ "/" ++ res) (h : '/' ∉ owner.data) :
    resourceCloudflareTeamsListImport m d w
      = { resources :=
            [(resourceCloudflareTeamsListRead m { d with account_id := owner, id := res } w).d],
          err := none,
          d := (resourceCloudflareTeamsListRead m { d with account_id := owner, id := res } w).d,
          w := (resourceCloudflareTeamsListRead m { d with account_id := owner, id := res } w).w,
          trace :=
            (resourceCloudflareTeamsListRead m { d with account_id := owner, id := res }
              w).trace } := by
  unfold resourceCloudflareTeamsListImport
  rw [stringsSplitN_slash d.id owner.data res.data (by rw [hid, data_owner_slash]) h]

theorem read_id {W : Type} (m : Provider W) (d : ResourceData) (w : W) :
    (resourceCloudflareTeamsListRead m d w).d.id
      = if isNotFound (m.client.TeamsList w d.account_id d.id).1 = true then "" else d.id := by
  rcases read_cases m d w with ⟨e, w1, hf, h⟩ | ⟨e, w1, hf, h⟩ | ⟨l, w1, e, w2, hf, hi⟩
    | ⟨l, w1, li, w2, hf, hi⟩
  · rw [read_notFound_eq m d w w1 e hf h, hf]; simp [isNotFound, h]
  · rw [read_fetchError_eq m d w w1 e hf h, hf]; simp [isNotFound, h]
  · rw [read_itemsError_eq m d w w1 w2 l e hf hi, hf]; simp [isNotFound]
  · rw [read_ok_eq m d w w1 w2 l li hf hi, hf]; simp [isNotFound]

/-- C7, as stated, fails: the identifiers `"a/b/c"`, `"/res1"` and `"acct1/"` are
not rejected.  Each is split at its first `"/"`, the two pieces are stored as
`account_id` and id, the Read is performed for them, and no error is returned. -/
theorem import_accepts_other_shapes :
    (resourceCloudflareTeamsListImport offlineProvider { sampleData with id := "a/b/c" } ()).err
        = none
    ∧ (resourceCloudflareTeamsListImport offlineProvider { sampleData with id := "a/b/c" }
          ()).trace = [⟨.TeamsList "a" "b/c", some "connection refused"⟩]
    ∧ (resourceCloudflareTeamsListImport offlineProvider { sampleData with id := "a/b/c" }
          ()).resources = [{ sampleData with account_id := "a", id := "b/c" }]
    ∧ (resourceCloudflareTeamsListImport offlineProvider { sampleData with id := "/res1" } ()).err
        = none
    ∧ (resourceCloudflareTeamsListImport offlineProvider { sampleData with id := "/res1" }
          ()).trace = [⟨.TeamsList "" "res1", some "connection refused"⟩]
    ∧ (resourceCloudflareTeamsListImport offlineProvider { sampleData with id := "acct1/" } ()).err
        = none
    ∧ (resourceCloudflareTeamsListImport offlineProvider { sampleData with id := "acct1/" }
          ()).trace = [⟨.TeamsList "acct1" "", some "connection refused"⟩] :=
  ⟨by decide, by decide, by decide, by decide, by decide, by decide, by decide⟩

/-- C7, amended: Import returns the malformed-input error, which contains the raw
identifier, without setting any state and without performing a Read, exactly for the
identifiers that contain no `"/"` (such as `"acct1"`).  Every identifier that
contains a `"/"` is accepted: it is split at its first `"/"` into an owner and a
rest, whatever further `"/"` the rest contains and whether or not a piece is empty,
and the Read is performed for these two. -/
theorem import_malformed_iff {W : Type} (m : Provider W) (d : ResourceData) (w : W) :
    ((resourceCloudflareTeamsListImport m d w).err.isSome = true ↔ '/' ∉ d.id.data)
    ∧ ('/' ∉ d.id.data →
        (resourceCloudflareTeamsListImport m d w).err
            = some ("invalid id (\"" ++ d.id
                ++ "\") specified, should be in format \"accountID/accessApplicationID\"")
        ∧ (resourceCloudflareTeamsListImport m d w).resources = []
        ∧ (resourceCloudflareTeamsListImport m d w).d = d
        ∧ (resourceCloudflareTeamsListImport m d w).trace = [])
    ∧ (∀ owner rest : String, d.id = owner ++ "/" ++ rest → '/' ∉ owner.data →
        (resourceCloudflareTeamsListImport m d w).err = none
        ∧ (resourceCloudflareTeamsListImport m d w).resources
            = [(resourceCloudflareTeamsListRead m { d with account_id := owner, id := rest }
                w).d]
        ∧ (resourceCloudflareTeamsListImport m d w).trace
            = (resourceCloudflareTeamsListRead m { d with account_id := owner, id := rest }
                w).trace) := by
  refine ⟨?_, ?_, ?_⟩
  · by_cases h : '/' ∈ d.id.data
    · obtain ⟨a, r, hs, ha⟩ := exists_first_slash d.id.data h
      have hid : d.id = String.mk a ++ "/" ++ String.mk r := by
        apply String.ext
        rw [data_owner_slash, hs]
      rw [import_split_eq m d w (String.mk a) (String.mk r) hid ha]
      simp [h]
    · rw [import_malformed_eq m d w h]
      simp [h]
  · intro h
    rw [import_malformed_eq m d w h]
    exact ⟨rfl, rfl, rfl, rfl⟩
  · intro owner rest hid ho
    rw [import_split_eq m d w owner rest hid ho]
    exact ⟨rfl, rfl, rfl⟩

/-- C7, amended, witness: `"acct1"` is rejected and `"a/b/c"` is accepted. -/
theorem import_malformed_iff_witness :
    '/' ∉ ({ sampleData with id := "acct1" } : ResourceData).id.data
    ∧ (resourceCloudflareTeamsListImport okProvider { sampleData with id := "acct1" } ()).err
        = some ("invalid id (\"" ++ "acct1"
            ++ "\") specified, should be in format \"accountID/accessApplicationID\"")
    ∧ (resourceCloudflareTeamsListImport okProvider { sampleData with id := "acct1" } ()).trace
        = []
    ∧ '/' ∉ ("a" : String).data
    ∧ (resourceCloudflareTeamsListImport okProvider { sampleData with id := "a/b/c" } ()).err
        = none :=
  ⟨by decide,
    ((import_malformed_iff okProvider { sampleData with id := "acct1" } ()).2.1 (by decide)).1,
    ((import_malformed_iff okProvider { sampleData with id := "acct1" } ()).2.1
      (by decide)).2.2.2,
    by decide,
    ((import_malformed_iff okProvider { sampleData with id := "a/b/c" } ()).2.2 "a" "b/c"
      (by decide) (by decide)).1⟩

/-- C8, as stated, fails in its last part: for `"acct1/res1"` and a remote side
whose entity fetch reports not-found, the Read of Import succeeds (it returns no
error) and the one returned resource has the empty id, not `"res1"`. -/
theorem import_notFound_clears_id :
    (resourceCloudflareTeamsListImport notFoundProvider { sampleData with id := "acct1/res1" }
        ()).err = none
    ∧ (resourceCloudflareTeamsListRead notFoundProvider
        { sampleData with account_id := "acct1", id := "res1" } ()).err = none
    ∧ (resourceCloudflareTeamsListImport notFoundProvider { sampleData with id := "acct1/res1" }
        ()).trace = [⟨.TeamsList "acct1" "res1", some "HTTP status 404: list not found"⟩]
    ∧ (resourceCloudflareTeamsListImport notFoundProvider { sampleData with id := "acct1/res1" }
        ()).resources = [{ sampleData with account_id := "acct1", id := "" }] :=
  ⟨by decide, by decide, by decide, by decide⟩

/-- C8, amended: for every identifier `owner + "/" + res` with `owner` and `res`
non-empty and free of `"/"`, Import returns no error, seeds the state with
`account_id = owner` and `id = res`, issues its Read for exactly `(owner, res)` (the
first call is the entity fetch for them) and returns exactly one resource, the
resource data after that Read.  The returned resource has `account_id = owner`; its
id is `res` unless the entity fetch of the Read reported not-found, in which case
the Read returns no error either and the id is empty.  (Of the four conditions on
`owner` and `res` the proof uses only that `owner` is free of `"/"`.) -/
theorem import_wellformed {W : Type} (m : Provider W) (d : ResourceData) (w : W)
    (owner res : String) (hid : d.id = owner ++ "/" ++ res)
    (_ho : owner ≠ "") (_hr : res ≠ "") (hos : '/' ∉ owner.data) (_hrs : '/' ∉ res.data) :
    (resourceCloudflareTeamsListImport m d w).err = none
    ∧ (resourceCloudflareTeamsListImport m d w).resources
        = [(resourceCloudflareTeamsListRead m { d with account_id := owner, id := res } w).d]
    ∧ (resourceCloudflareTeamsListImport m d w).trace
        = (resourceCloudflareTeamsListRead m { d with account_id := owner, id := res } w).trace
    ∧ ((resourceCloudflareTeamsListImport m d w).trace.head?).map (fun ev => ev.call)
        = some (.TeamsList owner res)
    ∧ (∀ r ∈ (resourceCloudflareTeamsListImport m d w).resources,
        r.account_id = owner
        ∧ r.id = if isNotFound (m.client.TeamsList w owner res).1 = true then "" else res)
    ∧ (isNotFound (m.client.TeamsList w owner res).1 = true →
        (resourceCloudflareTeamsListRead m { d with account_id := owner, id := res } w).err
          = none) := by
  rw [import_split_eq m d w owner res hid hos]
  refine ⟨rfl, rfl, rfl, ?_, ?_, ?_⟩
  · exact read_first_call m { d with account_id := owner, id := res } w
  · intro r hr'
    simp only [List.mem_singleton] at hr'
    subst hr'
    exact ⟨read_account_id m _ w, read_id m { d with account_id := owner, id := res } w⟩
  · intro hnf
    rcases hf : m.client.TeamsList w owner res with ⟨r, w1⟩
    rw [hf] at hnf
    cases r with
    | ok l => simp [isNotFound] at hnf
    | error e =>
      simp only [isNotFound] at hnf
      rw [read_notFound_eq m { d with account_id := owner, id := res } w w1 e hf hnf]

/-- C8, amended, witness: `"acct1/res1"` against a remote side on which every call
succeeds. -/
theorem import_wellformed_witness :
    ({ sampleData with id := "acct1/res1" } : ResourceData).id = "acct1" ++ "/" ++ "res1"
    ∧ ("acct1" : String) ≠ "" ∧ ("res1" : String) ≠ ""
    ∧ '/' ∉ ("acct1" : String).data ∧ '/' ∉ ("res1" : String).data
    ∧ (resourceCloudflareTeamsListImport okProvider { sampleData with id := "acct1/res1" }
        ()).err = none
    ∧ (∀ r ∈ (resourceCloudflareTeamsListImport okProvider { sampleData with id := "acct1/res1" }
          ()).resources,
        r.account_id = "acct1"
        ∧ r.id = if isNotFound (okProvider.client.TeamsList () "acct1" "res1").1 = true then ""
            else "res1") :=
  ⟨by decide, by decide, by decide, by decide, by decide,
    (import_wellformed okProvider { sampleData with id := "acct1/res1" } () "acct1" "res1"
      (by decide) (by decide) (by decide) (by decide) (by decide)).1,
    (import_wellformed okProvider { sampleData with id := "acct1/res1" } () "acct1" "res1"
      (by decide) (by decide) (by decide) (by decide) (by decide)).2.2.2.2.1⟩

/-! ## Which failures are surfaced -/

theorem create_surfaces_failures {W : Type} (m : Provider W) (d : ResourceData) (w : W) :
    ∀ ev ∈ (resourceCloudflareTeamsListCreate m d w).trace,
      ev.err.isSome = true → ev.isNotFoundFetch = false →
        (resourceCloudflareTeamsListCreate m d w).err.isSome = true := by
  unfold resourceCloudflareTeamsListCreate
  rcases hc : m.client.CreateTeamsList w d.account_id
      ⟨"", d.name, d.type, d.description,
        d.items.foldl (fun items v => items ++ [{ ID := "", Value := v }]) []⟩ with ⟨r, w1⟩
  cases r with
  | error e => simp [hc]
  | ok list =>
    simp only [hc]
    intro ev hev hs hnf
    simp only [List.mem_cons] at hev
    rcases hev with rfl | hev
    · simp at hs
    · exact read_surfaces_failures m _ w1 ev hev hs hnf

theorem update_surfaces_failures {W : Type} (m : Provider W) (d : ResourceData) (w : W) :
    ∀ ev ∈ (resourceCloudflareTeamsListUpdate m d w).trace,
      ev.err.isSome = true → ev.isNotFoundFetch = false →
        (resourceCloudflareTeamsListUpdate m d w).err.isSome = true := by
  rcases hu : m.client.UpdateTeamsList w d.account_id
      ⟨d.id, d.name, d.type, d.description, []⟩ with ⟨r, w1⟩
  cases r with
  | error e =>
    rw [update_error_eq m d w w1 e hu]
    simp
  | ok teamsList =>
    by_cases hid : teamsList.ID = ""
    · rw [update_emptyID_eq m d w w1 teamsList hu hid]
      simp
    · cases hc : d.HasChange with
      | false =>
        rw [update_unchanged_eq m d w w1 teamsList hu hid hc]
        intro ev hev hs hnf
        simp only [List.mem_cons] at hev
        rcases hev with rfl | hev
        · simp at hs
        · exact read_surfaces_failures m d w1 ev hev hs hnf
      | true =>
        rcases hp : m.client.PatchTeamsList w1 d.account_id
            (setListItemDiff m.rangeOrder ⟨d.id, [], []⟩ d.itemsPrior d.items) with ⟨r2, w2⟩
        cases r2 with
        | error e =>
          rw [update_patchError_eq m d w w1 w2 teamsList e hu hid hc hp]
          simp
        | ok l =>
          rw [update_patched_eq m d w w1 w2 teamsList l hu hid hc hp]
          intro ev hev hs hnf
          simp only [List.mem_cons] at hev
          rcases hev with rfl | rfl | hev
          · simp at hs
          · simp at hs
          · exact read_surfaces_failures m d w2 ev hev hs hnf

/-- C10, as stated, fails for Import: for `"acct1/res1"` and an unreachable remote
side the entity fetch of the Read fails with an error that is not a not-found
error, and Import returns no error. -/
theorem import_discards_read_failure :
    (resourceCloudflareTeamsListImport offlineProvider { sampleData with id := "acct1/res1" }
        ()).trace = [⟨.TeamsList "acct1" "res1", some "connection refused"⟩]
    ∧ Event.isNotFoundFetch ⟨.TeamsList "acct1" "res1", some "connection refused"⟩ = false
    ∧ (resourceCloudflareTeamsListRead offlineProvider
        { sampleData with account_id := "acct1", id := "res1" } ()).err
        = some "Error finding Teams List \"res1\": connection refused"
    ∧ (resourceCloudflareTeamsListImport offlineProvider { sampleData with id := "acct1/res1" }
        ()).err = none :=
  ⟨by decide, by decide, by decide, by decide⟩

/-- C10, amended: for Create and for Update, whenever a client call made during
the operation, the calls of the trailing Read included, fails with an error that
is not a not-found entity fetch, the operation returns an error.  Import discards
the failure of the Read it performs, as Delete does after a successful delete:
whenever Import returns an error it has made no client call. -/
theorem failures_surfaced {W : Type} (m : Provider W) (d : ResourceData) (w : W) :
    (∀ ev ∈ (resourceCloudflareTeamsListCreate m d w).trace,
      ev.err.isSome = true → ev.isNotFoundFetch = false →
        (resourceCloudflareTeamsListCreate m d w).err.isSome = true)
    ∧ (∀ ev ∈ (resourceCloudflareTeamsListUpdate m d w).trace,
      ev.err.isSome = true → ev.isNotFoundFetch = false →
        (resourceCloudflareTeamsListUpdate m d w).err.isSome = true)
    ∧ ((resourceCloudflareTeamsListImport m d w).err.isSome = true →
        (resourceCloudflareTeamsListImport m d w).trace = []) := by
  refine ⟨create_surfaces_failures m d w, update_surfaces_failures m d w, ?_⟩
  by_cases h : '/' ∈ d.id.data
  · obtain ⟨a, r, hs, ha⟩ := exists_first_slash d.id.data h
    have hid : d.id = String.mk a ++ "/" ++ String.mk r := by
      apply String.ext
      rw [data_owner_slash, hs]
    rw [import_split_eq m d w (String.mk a) (String.mk r) hid ha]
    simp
  · rw [import_malformed_eq m d w h]
    simp

/-- C10, amended, witness: Create and Update against a remote side whose items
fetch fails return an error. -/
theorem failures_surfaced_witness :
    (⟨.TeamsListItems "acct1" "res1", some "HTTP status 500"⟩ : Event)
        ∈ (resourceCloudflareTeamsListCreate itemsFailProvider sampleData ()).trace
    ∧ (resourceCloudflareTeamsListCreate itemsFailProvider sampleData ()).err.isSome = true
    ∧ (⟨.TeamsListItems "acct1" "res1", some "HTTP status 500"⟩ : Event)
        ∈ (resourceCloudflareTeamsListUpdate itemsFailProvider sampleData ()).trace
    ∧ (resourceCloudflareTeamsListUpdate itemsFailProvider sampleData ()).err.isSome = true :=
  ⟨by decide,
    (failures_surfaced itemsFailProvider sampleData ()).1
      ⟨.TeamsListItems "acct1" "res1", some "HTTP status 500"⟩ (by decide) (by decide)
      (by decide),
    by decide,
    (failures_surfaced itemsFailProvider sampleData ()).2.1
      ⟨.TeamsListItems "acct1" "res1", some "HTTP status 500"⟩ (by decide) (by decide)
      (by decide)⟩

end Cloudflare
